import Mathlib

/-!
Shallow embedding of the Azure data-disk attach/detach subsystem of the
repository (pkg/cloudprovider/providers/azure/azure_storage.go,
pkg/volume/azure_dd/{attacher.go, azure_dd.go, vhd_util.go}), together with
proofs of the behavioural claims about it.

Conventions of the embedding:
* Go functions become Lean functions; the mutable provider state (the VM
  list held by the cloud) is passed and returned explicitly.
* Fallible Go calls return a `GoRes` value; the `panics` constructor models
  a Go runtime panic (nil-pointer dereference, slice index out of range).
* External collaborators (the OS mounter, sysfs, the clock/ticker) are
  modelled as explicit environments or response functions supplied to the
  embedded function.
-/

/-- Result of a Go call: success, an error value, or a runtime panic. -/
inductive GoRes (ε α : Type) : Type where
  | ok (a : α)
  | err (e : ε)
  | panics
deriving DecidableEq, Repr

/-- The cloudprovider error values used by azure_storage.go. -/
inductive CloudErr : Type where
  | instanceNotFound
  | volumeNotFound
deriving DecidableEq, Repr

/-- compute.VirtualHardDisk: a struct holding a `URI *string`. -/
structure Vhd where
  uri : Option String
deriving DecidableEq, Repr

/-- compute.DataDisk: the fields azure_storage.go reads or writes.
`name`, `lun` model the `*string` / `*int32` pointers (`none` = nil);
`vhd` models the `*VirtualHardDisk` pointer. -/
structure DataDisk where
  name : Option String
  vhd : Option Vhd
  lun : Option Int
  caching : String
  createOption : String
deriving DecidableEq, Repr

/-- The slice of a compute.VirtualMachine that azure_storage.go touches:
its location and its StorageProfile.DataDisks list. -/
structure AzVM where
  vmLocation : String
  dataDisks : List DataDisk
deriving DecidableEq, Repr

/-- The provider-side state: the VMs of the resource group, by name. -/
structure CloudState where
  vms : String → Option AzVM

/-- Modelled from the spec: `az.getVirtualMachine` (its body is not under
src/) looks the named compute instance up with the provider and reports
whether it exists.  Transport errors of the ARM client are not modelled;
the claims all condition on the instance existing. -/
def getVirtualMachine (s : CloudState) (vmName : String) : Option AzVM :=
  s.vms vmName

/-- `az.VirtualMachinesClient.CreateOrUpdate` with a VM carrying only
Location and StorageProfile.DataDisks: commits the new disk list for the
named VM.  Commit success is assumed (the claims condition on it). -/
def commitDisks (s : CloudState) (vmName : String) (vm : AzVM)
    (disks : List DataDisk) : CloudState :=
  ⟨fun n => if n = vmName then some { vm with dataDisks := disks } else s.vms n⟩

/-- The DataDisk entry AttachDisk appends. -/
def newDataDisk (diskName diskUri : String) (lun : Int) (cachingMode : String) :
    DataDisk :=
  { name := some diskName
    vhd := some ⟨some diskUri⟩
    lun := some lun
    caching := cachingMode
    createOption := "attach" }

/-- azure_storage.go `AttachDisk`: looks the VM up, unconditionally appends
a new DataDisk entry to its disk list and commits the update. -/
def AttachDisk (s : CloudState) (diskName diskUri vmName : String) (lun : Int)
    (cachingMode : String) : GoRes CloudErr Unit × CloudState :=
  match getVirtualMachine s vmName with
  | none => (.err .instanceNotFound, s)
  | some vm =>
      (.ok (),
       commitDisks s vmName vm
         (vm.dataDisks ++ [newDataDisk diskName diskUri lun cachingMode]))

/-- The match test of GetDiskLun / DetachDiskByName, with Go's left-to-right
short-circuit evaluation:
`(disk.Name != nil && diskName != "" && *disk.Name == diskName) ||
 (disk.Vhd.URI != nil && diskUri != "" && *disk.Vhd.URI == diskUri)`.
Returns `none` when the Go expression dereferences a nil `disk.Vhd`
(a runtime panic). -/
def diskMatches (diskName diskUri : String) (d : DataDisk) : Option Bool :=
  let nameHit : Bool :=
    match d.name with
    | some n => diskName != "" && n == diskName
    | none => false
  if nameHit then some true
  else
    match d.vhd with
    | none => none
    | some v =>
        match v.uri with
        | none => some false
        | some u => some (diskUri != "" && u == diskUri)

/-- The scan loop of GetDiskLun: entries whose `Lun` pointer is nil are
skipped before the match test; the first matching entry's LUN is returned;
a nil `Vhd` reached by the match test panics. -/
def getDiskLunLoop (diskName diskUri : String) :
    List DataDisk → GoRes CloudErr Int
  | [] => .err .volumeNotFound
  | d :: ds =>
      match d.lun with
      | none => getDiskLunLoop diskName diskUri ds
      | some l =>
          match diskMatches diskName diskUri d with
          | none => .panics
          | some true => .ok l
          | some false => getDiskLunLoop diskName diskUri ds

/-- azure_storage.go `GetDiskLun`: find the LUN at which the named disk is
attached to the VM, or `VolumeNotFound`. -/
def GetDiskLun (s : CloudState) (diskName diskUri vmName : String) :
    GoRes CloudErr Int :=
  match getVirtualMachine s vmName with
  | none => .err .instanceNotFound
  | some vm => getDiskLunLoop diskName diskUri vm.dataDisks

/-- `used[l] = true` on a Go slice: in-range writes update the slot;
an out-of-range index (negative or beyond the length) panics (`none`). -/
def markUsed (used : List Bool) (l : Int) : Option (List Bool) :=
  if 0 ≤ l ∧ l < (used.length : Int) then some (used.set l.toNat true)
  else none

/-- The bitmap-building loop of GetNextDiskLun: each disk with a non-nil
LUN marks one slot; a panic while indexing propagates. -/
def buildUsed : List DataDisk → List Bool → Option (List Bool)
  | [], used => some used
  | d :: ds, used =>
      match d.lun with
      | none => buildUsed ds used
      | some l =>
          match markUsed used l with
          | none => none
          | some used2 => buildUsed ds used2

/-- The ascending scan `for k, v := range used { if !v { return k } }`:
index of the first `false` slot, if any. -/
def firstFalse : List Bool → Option Nat
  | [] => none
  | b :: rest => if b then (firstFalse rest).map Nat.succ else some 0

/-- azure_storage.go `GetNextDiskLun`: build a 64-slot used bitmap from the
VM's disk list, return the first free slot, or `VolumeNotFound` when all
64 slots are occupied. -/
def GetNextDiskLun (s : CloudState) (vmName : String) : GoRes CloudErr Int :=
  match getVirtualMachine s vmName with
  | none => .err .instanceNotFound
  | some vm =>
      match buildUsed vm.dataDisks (List.replicate 64 false) with
      | none => .panics
      | some used =>
          match firstFalse used with
          | some k => .ok (k : Int)
          | none => .err .volumeNotFound

/-- Go `strconv.Atoi` digit loop: value of a non-empty all-digit string. -/
def digitsValAux : List Char → Nat → Option Nat
  | [], acc => some acc
  | c :: cs, acc =>
      if c.isDigit then digitsValAux cs (acc * 10 + (c.toNat - '0'.toNat))
      else none

/-- Value of a non-empty digit string, `none` on empty or non-digit input. -/
def digitsToNat? : List Char → Option Nat
  | [] => none
  | c :: cs => digitsValAux (c :: cs) 0

/-- Go `strconv.Atoi`: optional sign followed by at least one digit. -/
def atoi? (s : String) : Option Int :=
  match s.data with
  | '+' :: rest => (digitsToNat? rest).map (fun n => (n : Int))
  | '-' :: rest => (digitsToNat? rest).map (fun n => -(n : Int))
  | cs => (digitsToNat? cs).map (fun n => (n : Int))

def splitOnAuxCh (sep : Char) : List Char → List (List Char)
  | [] => [[]]
  | c :: rest =>
      match splitOnAuxCh sep rest, decide (c = sep) with
      | r, true => [] :: r
      | [], false => [[c]]
      | g :: gs, false => (c :: g) :: gs

/-- Go `strings.Split` with a one-character separator (the only form the
code uses, with `:` and `/`). -/
def splitOnCh (sep : Char) (s : String) : List String :=
  (splitOnAuxCh sep s.data).map (fun l => ⟨l⟩)

/-- Go `strings.ToUpper` on the ASCII device descriptors involved here. -/
def strToUpper (s : String) : String := ⟨s.data.map Char.toUpper⟩

/-- Consume an expected literal from the front of the input, returning the
rest, or `none` when the input does not start with it. -/
def dropLit : List Char → List Char → Option (List Char)
  | [], rest => some rest
  | p :: ps, c :: cs => if p = c then dropLit ps cs else none
  | _ :: _, [] => none

/-- The anchored regular expression of vhd_util.go,
`^MSFT[ ]{0,}\nVIRTUAL DISK[ ]{0,}\n$`, applied to the uppercased
`cat vendor model` output: vendor line `MSFT` (trailing spaces allowed),
then model line `VIRTUAL DISK` (trailing spaces allowed), nothing after. -/
def isVhdSig (out : String) : Bool :=
  match dropLit "MSFT".data (strToUpper out).data with
  | none => false
  | some r1 =>
      match r1.dropWhile (fun c => c = ' ') with
      | '\n' :: r2 =>
          match dropLit "VIRTUAL DISK".data r2 with
          | none => false
          | some r3 =>
              match r3.dropWhile (fun c => c = ' ') with
              | ['\n'] => true
              | _ => false
      | _ => false

/-- One entry of /sys/bus/scsi/devices as findDiskByLun consumes it:
its directory name (`target:bus:lun:id`), the combined output of
`cat vendor model` (`none` = the command failed), and the listing of its
`block` subdirectory (`none` = ReadDir failed). -/
structure SysEntry where
  name : String
  catOut : Option String
  blockDevs : Option (List String)
deriving DecidableEq, Repr

/-- The scan loop of vhd_util.go `findDiskByLun`.  Entries with fewer than
four `:`-fields, a non-numeric or reserved (≤ 2) target, a lun field that
does not equal the requested lun, a failing `cat`, or a non-matching
vendor/model signature are skipped; for the first fully matching entry the
first name under its block subdirectory is returned as `/dev/<name>`
(`none` models the `dev[0]` panic on an empty block listing; a failing
block ReadDir skips the entry). -/
def fdblLoop (lun : Int) : List SysEntry → Option String
  | [] => some ""
  | e :: rest =>
      let arr := splitOnCh ':' e.name
      if arr.length < 4 then fdblLoop lun rest
      else
        match atoi? (arr.getD 0 "") with
        | none => fdblLoop lun rest
        | some target =>
            if target > 2 then
              match atoi? (arr.getD 2 "") with
              | none => fdblLoop lun rest
              | some l =>
                  if lun = l then
                    match e.catOut with
                    | none => fdblLoop lun rest
                    | some out =>
                        if isVhdSig out then
                          match e.blockDevs with
                          | none => fdblLoop lun rest
                          | some [] => none
                          | some (d :: _) => some ("/dev/" ++ d)
                        else fdblLoop lun rest
                  else fdblLoop lun rest
            else fdblLoop lun rest

/-- vhd_util.go `findDiskByLun`: scan the sysfs SCSI device listing for the
VHD attached at the given LUN; empty string when the listing cannot be
read or no entry matches. -/
def findDiskByLun (lun : Int) (sysfs : Option (List SysEntry)) : Option String :=
  match sysfs with
  | none => some ""
  | some entries => fdblLoop lun entries

/-- Go `strconv.Itoa` on the int32 LUN. -/
def itoa (i : Int) : String := toString i

/-- The instance-id trim of attacher.go `Attach` and `Detach`: keep the
part after the last `/`, if any. -/
def trimInstanceId (instanceid : String) : String :=
  (splitOnCh '/' instanceid).getLastD instanceid

/-- The error outcomes of attacher.go `Attach`. -/
inductive AttacherErr : Type where
  | allLunsUsed
  | attachFailed
deriving DecidableEq, Repr

/-- attacher.go `Attach` (the Attacher operation): trim the instance id,
probe with GetDiskLun; on success the volume is already attached and its
LUN is returned as a decimal string without touching the provider; on any
lookup error, allocate the next free LUN and append the disk via
AttachDisk.  The volume-spec and InstanceID collaborators are modelled as
the (diskName, diskUri, cachingMode, hostInstanceId) parameters. -/
def attacherAttach (s : CloudState)
    (diskName diskUri cachingMode hostInstanceId : String) :
    GoRes AttacherErr String × CloudState :=
  let instanceid := trimInstanceId hostInstanceId
  match GetDiskLun s diskName diskUri instanceid with
  | .panics => (.panics, s)
  | .ok lun => (.ok (itoa lun), s)
  | .err _ =>
      match GetNextDiskLun s instanceid with
      | .panics => (.panics, s)
      | .err _ => (.err .allLunsUsed, s)
      | .ok lun =>
          match AttachDisk s diskName diskUri instanceid lun cachingMode with
          | (.ok _, s2) => (.ok (itoa lun), s2)
          | (.err _, s2) => (.err .attachFailed, s2)
          | (.panics, s2) => (.panics, s2)

/-- The error outcomes of attacher.go `WaitForAttach`. -/
inductive WfaErr : Type where
  | emptyDevicePath (diskName : String)
  | wrongLun (dev : String)
  | cannotFindDevice (dev : String)
  | timeoutExpired (diskName : String)
deriving DecidableEq, Repr

/-- The ticker/timer select loop of WaitForAttach: `responses i` is the
value of `exists && err == nil` for the pathExists probe at the i-th
ticker fire; `fuel` is the number of ticker fires that happen before the
timeout timer fires.  The found device path is returned at the first
successful probe, else the timeout error naming the disk. -/
def wfaLoop (responses : Nat → Bool) (devicePath diskName : String) :
    Nat → Nat → GoRes WfaErr String
  | _, 0 => .err (.timeoutExpired diskName)
  | i, fuel + 1 =>
      if responses i then .ok devicePath
      else wfaLoop responses devicePath diskName (i + 1) fuel

/-- attacher.go `WaitForAttach`: reject an empty or non-numeric LUN token;
run the sysfs scanner once; fail immediately when it finds nothing;
otherwise poll existence of the single found path under the ticker/timer
loop. -/
def WaitForAttach (diskName dev : String) (sysfs : Option (List SysEntry))
    (responses : Nat → Bool) (ticks : Nat) : GoRes WfaErr String :=
  if dev = "" then .err (.emptyDevicePath diskName)
  else
    match atoi? dev with
    | none => .err (.wrongLun dev)
    | some lun =>
        match findDiskByLun lun sysfs with
        | none => .panics
        | some devicePath =>
            if devicePath = "" then .err (.cannotFindDevice dev)
            else wfaLoop responses devicePath diskName 0 ticks

/-- Go `path.Base`: strip trailing slashes and keep the last path element;
`/` for an all-slash path, `.` for the empty path. -/
def pathBase (s : String) : String :=
  match ((splitOnCh '/' s).filter (fun p => p ≠ "")).getLast? with
  | some p => p
  | none =>
      match s.data with
      | '/' :: _ => "/"
      | _ => "."

/-- The observable operations TearDownAt performs against the mounter, the
keyed lock and the filesystem, in order. -/
inductive TdOp : Type where
  | checkMnt (dir : String)
  | getRefs (dir : String)
  | lockKey (k : String)
  | unlockKey (k : String)
  | unmountOp (dir : String)
  | removeDir (dir : String)
deriving DecidableEq, Repr

/-- The failure outcomes of TearDownAt. -/
inductive TdErr : Type where
  | checkMntFailed
  | getRefsFailed
  | notMounted
  | unmountFailed
  | removeFailed
deriving DecidableEq, Repr

/-- Responses of the external mounter/filesystem to TearDownAt's calls, in
the order the code can make them.  `none` on a query means the call
errored.  `refs1` and `refs2` are the two successive GetMountRefs reads
(a concurrent SetUp may change the mount table between them). -/
structure TdEnv where
  isNotMnt1 : Option Bool
  refs1 : Option (List String)
  refs2 : Option (List String)
  unmountOk : Bool
  isNotMnt2 : Option Bool
  removeOk1 : Bool
  removeOk2 : Bool
deriving DecidableEq, Repr

/-- azure_dd.go `TearDownAt`: check the pod dir is a mount point (remove it
when not), read the mount refs, lock the keyed lock on the volume name
taken from the first ref, re-read the mount refs under the lock, unmount
the pod's bind mount, and remove the dir when it stopped being a mount
point.  The deferred UnlockKey is emitted on every exit path after the
lock.  (When the second mount-point check errors after a successful
unmount, the code returns the stale nil outer `err`, hence success.) -/
def tearDownAt (env : TdEnv) (dir : String) : Except TdErr Unit × List TdOp :=
  match env.isNotMnt1 with
  | none => (.error .checkMntFailed, [.checkMnt dir])
  | some true =>
      (if env.removeOk1 then .ok () else .error .removeFailed,
       [.checkMnt dir, .removeDir dir])
  | some false =>
      match env.refs1 with
      | none => (.error .getRefsFailed, [.checkMnt dir, .getRefs dir])
      | some [] => (.error .notMounted, [.checkMnt dir, .getRefs dir])
      | some (r :: _) =>
          let key := pathBase r
          match env.refs2 with
          | none =>
              (.error .getRefsFailed,
               [.checkMnt dir, .getRefs dir, .lockKey key, .getRefs dir,
                .unlockKey key])
          | some _ =>
              if env.unmountOk then
                match env.isNotMnt2 with
                | some true =>
                    (if env.removeOk2 then .ok () else .error .removeFailed,
                     [.checkMnt dir, .getRefs dir, .lockKey key, .getRefs dir,
                      .unmountOp dir, .checkMnt dir, .removeDir dir,
                      .unlockKey key])
                | some false =>
                    (.ok (),
                     [.checkMnt dir, .getRefs dir, .lockKey key, .getRefs dir,
                      .unmountOp dir, .checkMnt dir, .unlockKey key])
                | none =>
                    (.ok (),
                     [.checkMnt dir, .getRefs dir, .lockKey key, .getRefs dir,
                      .unmountOp dir, .checkMnt dir, .unlockKey key])
              else
                (.error .unmountFailed,
                 [.checkMnt dir, .getRefs dir, .lockKey key, .getRefs dir,
                  .unmountOp dir, .unlockKey key])

/-- Outcome of the IsLikelyNotMountPoint probe in MountDevice: a value, a
does-not-exist error, or any other error. -/
inductive MdCheck : Type where
  | ok (notMnt : Bool)
  | errNotExist
  | errOther
deriving DecidableEq, Repr

/-- The observable operations MountDevice performs, in order.  `unmountOp`
is never emitted by this function; it is part of the vocabulary so that
its absence is expressible. -/
inductive MdOp : Type where
  | checkMnt
  | mkdirAll
  | formatAndMount (ro : Bool)
  | unmountOp
  | removeDir
deriving DecidableEq, Repr

/-- The failure outcomes of MountDevice. -/
inductive MdErr : Type where
  | checkFailed
  | mkdirFailed
  | mountFailed
deriving DecidableEq, Repr

/-- Responses of the mounter/filesystem to MountDevice's calls. -/
structure MdEnv where
  check : MdCheck
  mkdirOk : Bool
  fmtOk : Bool
deriving DecidableEq, Repr

/-- attacher.go `MountDevice`: probe the global path with
IsLikelyNotMountPoint (creating the directory when it does not exist),
and when it is not yet a mount point, run FormatAndMount with the `ro`
option when the spec is read-only; on a FormatAndMount error the created
directory is removed with os.Remove and the error returned. -/
def mountDevice (env : MdEnv) (readOnly : Bool) : Except MdErr Unit × List MdOp :=
  match env.check with
  | .errOther => (.error .checkFailed, [.checkMnt])
  | .errNotExist =>
      if env.mkdirOk then
        if env.fmtOk then
          (.ok (), [.checkMnt, .mkdirAll, .formatAndMount readOnly])
        else
          (.error .mountFailed,
           [.checkMnt, .mkdirAll, .formatAndMount readOnly, .removeDir])
      else (.error .mkdirFailed, [.checkMnt, .mkdirAll])
  | .ok notMnt =>
      if notMnt then
        if env.fmtOk then (.ok (), [.checkMnt, .formatAndMount readOnly])
        else (.error .mountFailed, [.checkMnt, .formatAndMount readOnly, .removeDir])
      else (.ok (), [.checkMnt])

/-- `true` when some disk of the list is recorded at the given LUN. -/
def lunUsedB (disks : List DataDisk) (k : Nat) : Bool :=
  disks.any (fun d => d.lun == some (k : Int))

/-- A provider disk entry as AttachDisk writes them: LUN present and in
[0,64), Vhd pointer present. -/
def wfDisk (d : DataDisk) : Bool :=
  (match d.lun with
   | some l => decide (0 ≤ l ∧ l < 64)
   | none => false) && !(d.vhd == none)

/-- Some LUN in [0,64) is unassigned in the disk list. -/
def hasFreeLun (disks : List DataDisk) : Bool :=
  (List.range 64).any (fun k => !(lunUsedB disks k))

/-- Every recorded LUN of the disk list lies in [0,64). -/
def lunsInRange (disks : List DataDisk) : Bool :=
  disks.all (fun d =>
    match d.lun with
    | some l => decide (0 ≤ l ∧ l < 64)
    | none => true)

/-- Some disk of the list carries a LUN outside [0,64). -/
def hasBadLun (disks : List DataDisk) : Bool :=
  disks.any (fun d =>
    match d.lun with
    | some l => decide (l < 0 ∨ 64 ≤ l)
    | none => false)

/-- Example instance with disks at LUNs 0, 2 and 5. -/
def exVM1 : AzVM :=
  ⟨"loc", [newDataDisk "a" "uria" 0 "None", newDataDisk "b" "urib" 2 "None",
           newDataDisk "c" "uric" 5 "None"]⟩

/-- Provider state holding exVM1 under the name vm0. -/
def exState1 : CloudState := ⟨fun n => if n = "vm0" then some exVM1 else none⟩

/-- Example instance with a disk recorded at the out-of-range LUN 64. -/
def exState10 : CloudState :=
  ⟨fun n => if n = "vm0" then some ⟨"loc", [newDataDisk "a" "uria" 64 "None"]⟩
    else none⟩

/-- Example instance that already holds disk d (uri u) at LUN 0. -/
def exState3 : CloudState :=
  ⟨fun n => if n = "vm0" then some ⟨"loc", [newDataDisk "d" "u" 0 "None"]⟩
    else none⟩

/-- A disk entry whose name matches but whose LUN pointer is nil. -/
def nilLunDisk : DataDisk :=
  { name := some "d", vhd := some ⟨some "u"⟩, lun := none,
    caching := "None", createOption := "attach" }

/-- Provider state whose only disk entry is nilLunDisk. -/
def exState6a : CloudState :=
  ⟨fun n => if n = "vm0" then some ⟨"loc", [nilLunDisk]⟩ else none⟩

/-- Provider state that already holds disk e (uri w) at LUN 3. -/
def exState6b : CloudState :=
  ⟨fun n => if n = "vm0" then some ⟨"loc", [newDataDisk "e" "w" 3 "None"]⟩
    else none⟩

/-- Provider state with an empty disk list on vm0. -/
def exState4 : CloudState :=
  ⟨fun n => if n = "vm0" then some ⟨"loc", []⟩ else none⟩

/-- A sysfs entry at target 3, lun 5, with the MSFT / VIRTUAL DISK
descriptors and one block device sdc. -/
def exEntryT3 : SysEntry :=
  ⟨"3:0:5:0", some "Msft    \nVirtual Disk    \n", some ["sdc"]⟩

/-- The same entry at the reserved target 1. -/
def exEntryT1 : SysEntry :=
  ⟨"1:0:5:0", some "Msft    \nVirtual Disk    \n", some ["sdc"]⟩

/-- A TearDownAt environment: the dir is a live mount point with one
pre-lock reference, and all later calls succeed. -/
def exTdEnv : TdEnv :=
  ⟨some false, some ["/plugins/azure-disk/mounts/disk1"], some ["/r1", "/r2"],
   true, some false, true, true⟩

/-- The per-entry acceptance test of findDiskByLun up to (and excluding)
the block-subdirectory lookup: at least four `:`-fields, a numeric target
greater than 2, the third field numerically equal to the requested lun,
and a readable vendor/model pair matching the MSFT / VIRTUAL DISK
signature. -/
def entryMatchesVhd (lun : Int) (e : SysEntry) : Bool :=
  let arr := splitOnCh ':' e.name
  if arr.length < 4 then false
  else
    match atoi? (arr.getD 0 "") with
    | none => false
    | some target =>
        if target > 2 then
          match atoi? (arr.getD 2 "") with
          | none => false
          | some l =>
              if lun = l then
                match e.catOut with
                | none => false
                | some out => isVhdSig out
              else false
        else false

theorem getD_set_eq (us : List Bool) (i k : Nat) (b d : Bool) :
    (us.set i b).getD k d = if i = k ∧ k < us.length then b else us.getD k d := by
  simp only [List.getD_eq_getElem?_getD, List.getElem?_set]
  by_cases h1 : i = k
  · subst h1
    by_cases h2 : i < us.length
    · simp [h2]
    · simp [h2, List.getElem?_eq_none (Nat.le_of_not_lt h2)]
  · simp [h1]

theorem getD_replicate_false (n k : Nat) (d : Bool) :
    (List.replicate n false).getD k d = if k < n then false else d := by
  simp only [List.getD_eq_getElem?_getD, List.getElem?_replicate]
  by_cases h : k < n <;> simp [h]

theorem markUsed_some (us : List Bool) (l : Int) (us2 : List Bool)
    (h : markUsed us l = some us2) :
    0 ≤ l ∧ l < (us.length : Int) ∧ us2 = us.set l.toNat true := by
  unfold markUsed at h
  split at h
  · rename_i hc
    injection h with h
    exact ⟨hc.1, hc.2, h.symm⟩
  · cases h

theorem markUsed_none (us : List Bool) (l : Int)
    (h : ¬(0 ≤ l ∧ l < (us.length : Int))) : markUsed us l = none := by
  unfold markUsed
  exact if_neg h

theorem buildUsed_length : ∀ (ds : List DataDisk) (us us2 : List Bool),
    buildUsed ds us = some us2 → us2.length = us.length := by
  intro ds
  induction ds with
  | nil =>
      intro us us2 h
      simp only [buildUsed, Option.some.injEq] at h
      simp [h]
  | cons d t ih =>
      intro us us2 h
      cases hl : d.lun with
      | none =>
          simp only [buildUsed, hl] at h
          exact ih us us2 h
      | some l =>
          simp only [buildUsed, hl] at h
          cases hm : markUsed us l with
          | none => rw [hm] at h; cases h
          | some us3 =>
              rw [hm] at h
              have h3 := markUsed_some us l us3 hm
              rw [ih us3 us2 h, h3.2.2, List.length_set]

theorem buildUsed_some_of_inRange : ∀ (ds : List DataDisk) (us : List Bool),
    (∀ d ∈ ds, ∀ l, d.lun = some l → 0 ≤ l ∧ l < (us.length : Int)) →
    ∃ us2, buildUsed ds us = some us2 := by
  intro ds
  induction ds with
  | nil => intro us _; exact ⟨us, rfl⟩
  | cons d t ih =>
      intro us hr
      cases hl : d.lun with
      | none =>
          simp only [buildUsed, hl]
          exact ih us (fun d2 hd2 l hdl => hr d2 (List.mem_cons_of_mem d hd2) l hdl)
      | some l =>
          have hrange := hr d (List.mem_cons_self d t) l hl
          have hm : markUsed us l = some (us.set l.toNat true) := by
            unfold markUsed
            exact if_pos hrange
          simp only [buildUsed, hl, hm]
          refine ih (us.set l.toNat true) ?_
          intro d2 hd2 l2 hdl2
          have := hr d2 (List.mem_cons_of_mem d hd2) l2 hdl2
          simpa [List.length_set] using this

theorem buildUsed_none_of_bad : ∀ (ds : List DataDisk) (us : List Bool),
    (∃ d ∈ ds, ∃ l, d.lun = some l ∧ (l < 0 ∨ (us.length : Int) ≤ l)) →
    buildUsed ds us = none := by
  intro ds
  induction ds with
  | nil => intro us h; simp at h
  | cons d t ih =>
      intro us h
      obtain ⟨d2, hd2, l2, hdl2, hbad⟩ := h
      rcases List.mem_cons.mp hd2 with hhead | htail
      · subst hhead
        have hm : markUsed us l2 = none := by
          apply markUsed_none
          intro hc
          rcases hbad with hb | hb
          · exact absurd hc.1 (not_le.mpr hb)
          · exact absurd hc.2 (not_lt.mpr hb)
        simp only [buildUsed, hdl2, hm]
      · cases hl : d.lun with
        | none =>
            simp only [buildUsed, hl]
            exact ih us ⟨d2, htail, l2, hdl2, hbad⟩
        | some l =>
            cases hm : markUsed us l with
            | none => simp only [buildUsed, hl, hm]
            | some us3 =>
                simp only [buildUsed, hl, hm]
                have h3 := markUsed_some us l us3 hm
                apply ih us3
                refine ⟨d2, htail, l2, hdl2, ?_⟩
                rw [h3.2.2, List.length_set]
                exact hbad

theorem buildUsed_getD : ∀ (ds : List DataDisk) (us us2 : List Bool),
    buildUsed ds us = some us2 → ∀ k, k < us.length →
    us2.getD k true = (us.getD k true || lunUsedB ds k) := by
  intro ds
  induction ds with
  | nil =>
      intro us us2 h k _
      simp only [buildUsed, Option.some.injEq] at h
      simp [h, lunUsedB]
  | cons d t ih =>
      intro us us2 h k hk
      cases hl : d.lun with
      | none =>
          simp only [buildUsed, hl] at h
          rw [ih us us2 h k hk]
          simp [lunUsedB, hl]
      | some l =>
          simp only [buildUsed, hl] at h
          cases hm : markUsed us l with
          | none => rw [hm] at h; cases h
          | some us3 =>
              rw [hm] at h
              obtain ⟨hl0, hllen, hset⟩ := markUsed_some us l us3 hm
              have hk3 : k < us3.length := by rw [hset, List.length_set]; exact hk
              rw [ih us3 us2 h k hk3, hset, getD_set_eq]
              by_cases hlk : l = (k : Int)
              · have ht : l.toNat = k := by
                  rw [hlk]
                  exact Int.toNat_natCast k
                simp [ht, hk, lunUsedB, hl, hlk]
              · have ht : l.toNat ≠ k := by
                  intro hc
                  apply hlk
                  rw [← hc, Int.toNat_of_nonneg hl0]
                have hne : ¬(l.toNat = k ∧ k < us.length) := fun hc => ht hc.1
                simp only [if_neg hne]
                have hbeq : (d.lun == some (k : Int)) = false := by
                  simp [hl, hlk]
                simp [lunUsedB, hbeq, Bool.or_assoc]

theorem firstFalse_eq_some_iff : ∀ (us : List Bool) (m : Nat),
    firstFalse us = some m ↔
      (m < us.length ∧ us.getD m true = false ∧
        ∀ j, j < m → us.getD j true = true) := by
  intro us
  induction us with
  | nil => intro m; simp [firstFalse]
  | cons b t ih =>
      intro m
      cases b with
      | true =>
          cases m with
          | zero => simp [firstFalse]
          | succ m2 =>
              simp only [firstFalse, if_pos, Option.map_eq_some']
              constructor
              · rintro ⟨m3, hm3, hEq⟩
                have hm2 : m3 = m2 := Nat.succ_injective hEq
                rw [hm2] at hm3
                obtain ⟨h1, h2, h3⟩ := (ih m2).mp hm3
                refine ⟨Nat.succ_lt_succ h1, h2, ?_⟩
                intro j hj
                cases j with
                | zero => simp
                | succ j2 => exact h3 j2 (Nat.lt_of_succ_lt_succ hj)
              · rintro ⟨h1, h2, h3⟩
                refine ⟨m2, (ih m2).mpr ⟨Nat.lt_of_succ_lt_succ h1, h2, ?_⟩, rfl⟩
                intro j2 hj2
                exact h3 (j2 + 1) (Nat.succ_lt_succ hj2)
      | false =>
          cases m with
          | zero => simp [firstFalse]
          | succ m2 =>
              simp only [firstFalse]
              constructor
              · intro h
                simp at h
              · rintro ⟨_, _, h3⟩
                have := h3 0 (Nat.succ_pos m2)
                simp at this

theorem firstFalse_eq_none_iff : ∀ (us : List Bool),
    firstFalse us = none ↔ ∀ j, j < us.length → us.getD j true = true := by
  intro us
  induction us with
  | nil => simp [firstFalse]
  | cons b t ih =>
      cases b with
      | true =>
          simp only [firstFalse, if_pos, Option.map_eq_none', ih]
          constructor
          · intro h j hj
            cases j with
            | zero => simp
            | succ j2 => exact h j2 (Nat.lt_of_succ_lt_succ hj)
          · intro h j2 hj2
            exact h (j2 + 1) (Nat.succ_lt_succ hj2)
      | false =>
          simp only [firstFalse]
          constructor
          · intro h; simp at h
          · intro h
            have := h 0 (by simp)
            simp at this

/-- C1: for every instance whose attached disks all have LUNs in [0,64),
GetNextDiskLun returns exactly the smallest LUN in [0,64) not assigned to
any disk in the instance's disk list, and it fails with VolumeNotFound
when all 64 LUNs are in use. -/
theorem getNextDiskLun_least_free (s : CloudState) (vmName : String)
    (vm : AzVM) (hvm : getVirtualMachine s vmName = some vm)
    (hr : lunsInRange vm.dataDisks = true) :
    (∀ k : Nat, GetNextDiskLun s vmName = .ok (k : Int) ↔
        (k < 64 ∧ lunUsedB vm.dataDisks k = false ∧
          ∀ j, j < k → lunUsedB vm.dataDisks j = true)) ∧
    ((∀ k, k < 64 → lunUsedB vm.dataDisks k = true) →
      GetNextDiskLun s vmName = .err .volumeNotFound) := by
  have hr2 : ∀ d ∈ vm.dataDisks, ∀ l, d.lun = some l →
      0 ≤ l ∧ l < ((List.replicate 64 false : List Bool).length : Int) := by
    intro d hd l hl
    have hx := (List.all_eq_true.mp hr) d hd
    rw [hl] at hx
    simp only [decide_eq_true_eq] at hx
    simpa using hx
  obtain ⟨us2, hb⟩ := buildUsed_some_of_inRange vm.dataDisks _ hr2
  have hlen : us2.length = 64 := by
    simpa using buildUsed_length _ _ _ hb
  have hchar : ∀ k, k < 64 → us2.getD k true = lunUsedB vm.dataDisks k := by
    intro k hk
    have hgd := buildUsed_getD _ _ _ hb k (by simpa using hk)
    rw [hgd, getD_replicate_false]
    simp [hk]
  have hgn : GetNextDiskLun s vmName =
      (match firstFalse us2 with
       | some k => .ok (k : Int)
       | none => .err .volumeNotFound) := by
    simp only [GetNextDiskLun, hvm, hb]
  constructor
  · intro k
    rw [hgn]
    constructor
    · intro h
      cases hf : firstFalse us2 with
      | none => rw [hf] at h; cases h
      | some m =>
          rw [hf] at h
          have hmk : m = k := by
            have h2 : GoRes.ok (ε := CloudErr) (m : Int) = .ok (k : Int) := h
            injection h2 with h3
            exact_mod_cast h3
          subst hmk
          obtain ⟨h1, h2, h3⟩ := (firstFalse_eq_some_iff us2 m).mp hf
          rw [hlen] at h1
          refine ⟨h1, ?_, ?_⟩
          · rw [← hchar m h1]; exact h2
          · intro j hj
            rw [← hchar j (lt_trans hj h1)]
            exact h3 j hj
    · rintro ⟨h1, h2, h3⟩
      have hf : firstFalse us2 = some k := by
        apply (firstFalse_eq_some_iff us2 k).mpr
        refine ⟨by rw [hlen]; exact h1, by rw [hchar k h1]; exact h2, ?_⟩
        intro j hj
        rw [hchar j (lt_trans hj h1)]
        exact h3 j hj
      rw [hf]
  · intro hall
    rw [hgn]
    have hf : firstFalse us2 = none := by
      apply (firstFalse_eq_none_iff us2).mpr
      intro j hj
      rw [hlen] at hj
      rw [hchar j hj]
      exact hall j hj
    rw [hf]

/-- Witness for C1: with LUNs 0, 2 and 5 in use, GetNextDiskLun returns 1. -/
theorem getNextDiskLun_least_free_witness :
    lunsInRange exVM1.dataDisks = true ∧ GetNextDiskLun exState1 "vm0" = .ok 1 :=
  ⟨by decide,
   ((getNextDiskLun_least_free exState1 "vm0" exVM1 (by decide) (by decide)).1
      1).mpr (by decide)⟩

/-- C10: when some disk of an existing instance carries a LUN outside
[0,64), GetNextDiskLun panics (the 64-slot bitmap is indexed without a
bounds check) instead of returning an error. -/
theorem getNextDiskLun_panics_out_of_range (s : CloudState) (vmName : String)
    (vm : AzVM) (hvm : getVirtualMachine s vmName = some vm)
    (hbad : hasBadLun vm.dataDisks = true) :
    GetNextDiskLun s vmName = .panics := by
  obtain ⟨d, hd, hpd⟩ := List.any_eq_true.mp hbad
  cases hl : d.lun with
  | none => rw [hl] at hpd; simp at hpd
  | some l =>
      rw [hl] at hpd
      simp only [decide_eq_true_eq] at hpd
      have hb : buildUsed vm.dataDisks (List.replicate 64 false) = none := by
        apply buildUsed_none_of_bad
        exact ⟨d, hd, l, hl, by simpa using hpd⟩
      simp only [GetNextDiskLun, hvm, hb]

/-- Witness for C10: a disk recorded at LUN 64 makes GetNextDiskLun panic. -/
theorem getNextDiskLun_panics_witness :
    hasBadLun [newDataDisk "a" "uria" 64 "None"] = true ∧
      GetNextDiskLun exState10 "vm0" = .panics :=
  ⟨by decide,
   getNextDiskLun_panics_out_of_range exState10 "vm0"
     ⟨"loc", [newDataDisk "a" "uria" 64 "None"]⟩ (by decide) (by decide)⟩

/-- Counterexample to C3: attaching a disk that is already present at the
requested LUN succeeds but commits a second, duplicate, entry for it. -/
theorem attachDisk_duplicate_cex :
    (AttachDisk exState3 "d" "u" "vm0" 0 "None").1 = .ok () ∧
    (getVirtualMachine (AttachDisk exState3 "d" "u" "vm0" 0 "None").2
        "vm0").map
      (fun vm2 => vm2.dataDisks.countP
        (fun d2 => diskMatches "d" "u" d2 == some true)) = some 2 := by
  decide

/-- C3 amended: AttachDisk is not idempotent at the provider level: for an
existing instance it returns success and unconditionally appends a fresh
entry for the disk to the committed disk list, even when the disk is
already attached at the requested LUN (idempotence is provided by the
Attacher, which consults GetDiskLun before calling AttachDisk). -/
theorem attachDisk_appends_unconditionally (s : CloudState)
    (diskName diskUri vmName : String) (lun : Int) (cm : String) (vm : AzVM)
    (hvm : getVirtualMachine s vmName = some vm) :
    (AttachDisk s diskName diskUri vmName lun cm).1 = .ok () ∧
    getVirtualMachine (AttachDisk s diskName diskUri vmName lun cm).2 vmName =
      some { vmLocation := vm.vmLocation,
             dataDisks :=
               vm.dataDisks ++ [newDataDisk diskName diskUri lun cm] } := by
  simp only [AttachDisk, hvm]
  simp [getVirtualMachine, commitDisks]

/-- Witness for the amended C3 at a concrete state. -/
theorem attachDisk_appends_unconditionally_witness :
    getVirtualMachine exState3 "vm0" =
      some ⟨"loc", [newDataDisk "d" "u" 0 "None"]⟩ ∧
    ((AttachDisk exState3 "d" "u" "vm0" 0 "None").1 = .ok () ∧
      getVirtualMachine (AttachDisk exState3 "d" "u" "vm0" 0 "None").2 "vm0" =
        some { vmLocation := "loc",
               dataDisks := [newDataDisk "d" "u" 0 "None",
                             newDataDisk "d" "u" 0 "None"] }) :=
  ⟨by decide,
   attachDisk_appends_unconditionally exState3 "d" "u" "vm0" 0 "None"
     ⟨"loc", [newDataDisk "d" "u" 0 "None"]⟩ (by decide)⟩

theorem getDiskLunLoop_skip_all (dn du : String) : ∀ (ds : List DataDisk),
    (∀ d ∈ ds, d.lun = none ∨ diskMatches dn du d = some false) →
    getDiskLunLoop dn du ds = .err .volumeNotFound := by
  intro ds
  induction ds with
  | nil => intro _; rfl
  | cons d t ih =>
      intro h
      have htail := ih (fun d2 hd2 => h d2 (List.mem_cons_of_mem d hd2))
      rcases h d (List.mem_cons_self d t) with hl | hm
      · simp only [getDiskLunLoop, hl]
        exact htail
      · cases hl : d.lun with
        | none => simp only [getDiskLunLoop, hl]; exact htail
        | some l => simp only [getDiskLunLoop, hl, hm]; exact htail

theorem getDiskLunLoop_append (dn du : String) :
    ∀ (ds rest : List DataDisk),
    (∀ d ∈ ds, d.lun = none ∨ diskMatches dn du d = some false) →
    getDiskLunLoop dn du (ds ++ rest) = getDiskLunLoop dn du rest := by
  intro ds
  induction ds with
  | nil => intro rest _; rfl
  | cons d t ih =>
      intro rest h
      have htail := ih rest (fun d2 hd2 => h d2 (List.mem_cons_of_mem d hd2))
      rcases h d (List.mem_cons_self d t) with hl | hm
      · simp only [List.cons_append, getDiskLunLoop, hl]
        exact htail
      · cases hl : d.lun with
        | none => simp only [List.cons_append, getDiskLunLoop, hl]; exact htail
        | some l =>
            simp only [List.cons_append, getDiskLunLoop, hl, hm]
            exact htail

theorem diskMatches_newDataDisk (dn du : String) (l : Int) (cm : String)
    (h : dn ≠ "") :
    diskMatches dn du (newDataDisk dn du l cm) = some true := by
  simp [diskMatches, newDataDisk, h]

theorem getNextDiskLun_ok_of_free (s : CloudState) (vmName : String)
    (vm : AzVM) (hvm : getVirtualMachine s vmName = some vm)
    (hr : lunsInRange vm.dataDisks = true)
    (hfree : hasFreeLun vm.dataDisks = true) :
    ∃ k : Nat, k < 64 ∧ GetNextDiskLun s vmName = .ok (k : Int) ∧
      lunUsedB vm.dataDisks k = false := by
  have hr2 : ∀ d ∈ vm.dataDisks, ∀ l, d.lun = some l →
      0 ≤ l ∧ l < ((List.replicate 64 false : List Bool).length : Int) := by
    intro d hd l hl
    have hx := (List.all_eq_true.mp hr) d hd
    rw [hl] at hx
    simp only [decide_eq_true_eq] at hx
    simpa using hx
  obtain ⟨us2, hb⟩ := buildUsed_some_of_inRange vm.dataDisks _ hr2
  have hlen : us2.length = 64 := by
    simpa using buildUsed_length _ _ _ hb
  have hchar : ∀ k, k < 64 → us2.getD k true = lunUsedB vm.dataDisks k := by
    intro k hk
    have hgd := buildUsed_getD _ _ _ hb k (by simpa using hk)
    rw [hgd, getD_replicate_false]
    simp [hk]
  obtain ⟨j, hj, hjf⟩ := List.any_eq_true.mp hfree
  have hj64 : j < 64 := List.mem_range.mp hj
  have hjfree : lunUsedB vm.dataDisks j = false := by
    simpa using hjf
  cases hf : firstFalse us2 with
  | none =>
      exfalso
      have := (firstFalse_eq_none_iff us2).mp hf j (by rw [hlen]; exact hj64)
      rw [hchar j hj64] at this
      rw [hjfree] at this
      cases this
  | some k =>
      obtain ⟨h1, h2, _⟩ := (firstFalse_eq_some_iff us2 k).mp hf
      rw [hlen] at h1
      refine ⟨k, h1, ?_, ?_⟩
      · simp only [GetNextDiskLun, hvm, hb, hf]
      · rw [← hchar k h1]
        exact h2

/-- C4: two consecutive Attacher Attach calls for the same identity and
instance, with no intervening detach and the provider commits succeeding,
both return success with the same LUN token, the second call leaves the
provider state untouched (it short-circuits via GetDiskLun), and the
committed disk list holds exactly one entry for the disk. -/
theorem attacherAttach_twice_idempotent (s : CloudState)
    (dn du cm host : String) (vm : AzVM)
    (hvm : getVirtualMachine s (trimInstanceId host) = some vm)
    (hr : lunsInRange vm.dataDisks = true)
    (hnm : vm.dataDisks.all (fun d => diskMatches dn du d == some false) = true)
    (hfree : hasFreeLun vm.dataDisks = true)
    (hdn : dn ≠ "") :
    ∃ L : Int,
      (attacherAttach s dn du cm host).1 = .ok (itoa L) ∧
      (attacherAttach (attacherAttach s dn du cm host).2 dn du cm host).1 =
        .ok (itoa L) ∧
      (attacherAttach (attacherAttach s dn du cm host).2 dn du cm host).2 =
        (attacherAttach s dn du cm host).2 ∧
      (getVirtualMachine (attacherAttach s dn du cm host).2
          (trimInstanceId host)).map
        (fun vm2 => vm2.dataDisks.countP
          (fun d => diskMatches dn du d == some true)) = some 1 := by
  have hnm2 : ∀ d ∈ vm.dataDisks, diskMatches dn du d = some false := by
    intro d hd
    have := (List.all_eq_true.mp hnm) d hd
    exact beq_iff_eq.mp this
  have h1 : GetDiskLun s dn du (trimInstanceId host) = .err .volumeNotFound := by
    simp only [GetDiskLun, hvm]
    exact getDiskLunLoop_skip_all dn du vm.dataDisks
      (fun d hd => Or.inr (hnm2 d hd))
  obtain ⟨k, hk64, hnext, hkfree⟩ :=
    getNextDiskLun_ok_of_free s (trimInstanceId host) vm hvm hr hfree
  have hAtt : AttachDisk s dn du (trimInstanceId host) (k : Int) cm =
      (.ok (), commitDisks s (trimInstanceId host) vm
        (vm.dataDisks ++ [newDataDisk dn du (k : Int) cm])) := by
    simp only [AttachDisk, hvm]
  have hfirst : attacherAttach s dn du cm host =
      (.ok (itoa (k : Int)),
       commitDisks s (trimInstanceId host) vm
         (vm.dataDisks ++ [newDataDisk dn du (k : Int) cm])) := by
    simp only [attacherAttach, h1, hnext, hAtt]
  have hvm2 : getVirtualMachine
      (commitDisks s (trimInstanceId host) vm
        (vm.dataDisks ++ [newDataDisk dn du (k : Int) cm]))
      (trimInstanceId host) =
      some { vmLocation := vm.vmLocation,
             dataDisks := vm.dataDisks ++ [newDataDisk dn du (k : Int) cm] } := by
    simp [getVirtualMachine, commitDisks]
  have hlun2 : GetDiskLun
      (commitDisks s (trimInstanceId host) vm
        (vm.dataDisks ++ [newDataDisk dn du (k : Int) cm]))
      dn du (trimInstanceId host) = .ok (k : Int) := by
    simp only [GetDiskLun, hvm2]
    rw [getDiskLunLoop_append dn du vm.dataDisks _
      (fun d hd => Or.inr (hnm2 d hd))]
    simp [getDiskLunLoop, newDataDisk, diskMatches, hdn]
  have hsecond : attacherAttach
      (commitDisks s (trimInstanceId host) vm
        (vm.dataDisks ++ [newDataDisk dn du (k : Int) cm]))
      dn du cm host =
      (.ok (itoa (k : Int)),
       commitDisks s (trimInstanceId host) vm
         (vm.dataDisks ++ [newDataDisk dn du (k : Int) cm])) := by
    simp only [attacherAttach, hlun2]
  refine ⟨(k : Int), ?_, ?_, ?_, ?_⟩
  · rw [hfirst]
  · rw [hfirst]
    rw [hsecond]
  · rw [hfirst]
    rw [hsecond]
  · rw [hfirst]
    simp only [hvm2, Option.map_some']
    congr 1
    rw [List.countP_append]
    have hz : vm.dataDisks.countP
        (fun d => diskMatches dn du d == some true) = 0 := by
      apply List.countP_eq_zero.mpr
      intro d hd
      simp [hnm2 d hd]
    rw [hz]
    simp [List.countP_cons, diskMatches_newDataDisk dn du (k : Int) cm hdn]

/-- Witness for C4 at a concrete instance with an empty disk list. -/
theorem attacherAttach_twice_idempotent_witness :
    getVirtualMachine exState4 (trimInstanceId "vm0") = some ⟨"loc", []⟩ ∧
    ∃ L : Int,
      (attacherAttach exState4 "d" "u" "None" "vm0").1 = .ok (itoa L) ∧
      (attacherAttach (attacherAttach exState4 "d" "u" "None" "vm0").2
          "d" "u" "None" "vm0").1 = .ok (itoa L) ∧
      (attacherAttach (attacherAttach exState4 "d" "u" "None" "vm0").2
          "d" "u" "None" "vm0").2 =
        (attacherAttach exState4 "d" "u" "None" "vm0").2 ∧
      (getVirtualMachine (attacherAttach exState4 "d" "u" "None" "vm0").2
          (trimInstanceId "vm0")).map
        (fun vm2 => vm2.dataDisks.countP
          (fun d => diskMatches "d" "u" d == some true)) = some 1 :=
  ⟨by decide,
   attacherAttach_twice_idempotent exState4 "d" "u" "None" "vm0" ⟨"loc", []⟩
     (by decide) (by decide) (by decide) (by decide) (by decide)⟩

theorem getDiskLunLoop_notFound_iff (dn du : String) : ∀ (ds : List DataDisk),
    (∀ d ∈ ds, diskMatches dn du d ≠ none) →
    (getDiskLunLoop dn du ds = .err .volumeNotFound ↔
      ∀ d ∈ ds, d.lun = none ∨ diskMatches dn du d = some false) := by
  intro ds
  induction ds with
  | nil => intro _; simp [getDiskLunLoop]
  | cons d t ih =>
      intro hnp
      have ihx := ih (fun d2 hd2 => hnp d2 (List.mem_cons_of_mem d hd2))
      cases hl : d.lun with
      | none =>
          simp only [getDiskLunLoop, hl]
          rw [ihx]
          constructor
          · intro h d2 hd2
            rcases List.mem_cons.mp hd2 with he | ht
            · subst he; exact Or.inl hl
            · exact h d2 ht
          · intro h d2 hd2
            exact h d2 (List.mem_cons_of_mem d hd2)
      | some l =>
          cases hm : diskMatches dn du d with
          | none => exact absurd hm (hnp d (List.mem_cons_self d t))
          | some b =>
              cases b with
              | true =>
                  simp only [getDiskLunLoop, hl, hm]
                  constructor
                  · intro h; cases h
                  · intro h
                    rcases h d (List.mem_cons_self d t) with he | hf
                    · rw [hl] at he; cases he
                    · rw [hm] at hf
                      cases hf
              | false =>
                  simp only [getDiskLunLoop, hl, hm]
                  rw [ihx]
                  constructor
                  · intro h d2 hd2
                    rcases List.mem_cons.mp hd2 with he | ht
                    · subst he; exact Or.inr hm
                    · exact h d2 ht
                  · intro h d2 hd2
                    exact h d2 (List.mem_cons_of_mem d hd2)

/-- Counterexample to C6: a disk entry whose name matches but whose LUN
pointer is nil still yields VolumeNotFound, and after a successful
AttachDisk at LUN 5 of a disk already attached at LUN 3, GetDiskLun
returns the earlier entry's LUN 3, not 5. -/
theorem getDiskLun_cex :
    (GetDiskLun exState6a "d" "" "vm0" = .err .volumeNotFound ∧
      [nilLunDisk].any (fun d => diskMatches "d" "" d == some true) = true) ∧
    ((AttachDisk exState6b "e" "w" "vm0" 5 "None").1 = .ok () ∧
      GetDiskLun (AttachDisk exState6b "e" "w" "vm0" 5 "None").2 "e" "w"
        "vm0" = .ok 3 ∧ (3 : Int) ≠ 5) := by
  decide

/-- C6 amended: for an existing instance, (a) provided no disk entry makes
the match test panic, GetDiskLun returns VolumeNotFound exactly when no
entry that carries a LUN matches the disk's name or URI (entries whose LUN
pointer is nil are skipped even when they match); and (b) after a
successful AttachDisk at LUN L of a disk with a non-empty name that no
earlier entry matches, GetDiskLun returns L. -/
theorem getDiskLun_notFound_and_after_attach (s : CloudState)
    (dn du vmName : String) (vm : AzVM)
    (hvm : getVirtualMachine s vmName = some vm) :
    ((∀ d ∈ vm.dataDisks, diskMatches dn du d ≠ none) →
      (GetDiskLun s dn du vmName = .err .volumeNotFound ↔
        ∀ d ∈ vm.dataDisks, d.lun = none ∨ diskMatches dn du d = some false)) ∧
    (∀ (L : Int) (cm : String),
      (∀ d ∈ vm.dataDisks, d.lun = none ∨ diskMatches dn du d = some false) →
      dn ≠ "" →
      (AttachDisk s dn du vmName L cm).1 = .ok () ∧
      GetDiskLun (AttachDisk s dn du vmName L cm).2 dn du vmName = .ok L) := by
  constructor
  · intro hnp
    simp only [GetDiskLun, hvm]
    exact getDiskLunLoop_notFound_iff dn du vm.dataDisks hnp
  · intro L cm hskip hdn
    have hAtt : AttachDisk s dn du vmName L cm =
        (.ok (), commitDisks s vmName vm
          (vm.dataDisks ++ [newDataDisk dn du L cm])) := by
      simp only [AttachDisk, hvm]
    rw [hAtt]
    refine ⟨rfl, ?_⟩
    have hvm2 : getVirtualMachine
        (commitDisks s vmName vm (vm.dataDisks ++ [newDataDisk dn du L cm]))
        vmName =
        some { vmLocation := vm.vmLocation,
               dataDisks := vm.dataDisks ++ [newDataDisk dn du L cm] } := by
      simp [getVirtualMachine, commitDisks]
    simp only [GetDiskLun, hvm2]
    rw [getDiskLunLoop_append dn du vm.dataDisks _ hskip]
    simp [getDiskLunLoop, newDataDisk, diskMatches, hdn]

/-- Witness for the amended C6 at a concrete instance with an empty disk
list: GetDiskLun fails with VolumeNotFound before AttachDisk and returns
the requested LUN 7 after it. -/
theorem getDiskLun_notFound_and_after_attach_witness :
    GetDiskLun exState4 "d" "u" "vm0" = .err .volumeNotFound ∧
    ((AttachDisk exState4 "d" "u" "vm0" 7 "None").1 = .ok () ∧
      GetDiskLun (AttachDisk exState4 "d" "u" "vm0" 7 "None").2 "d" "u"
        "vm0" = .ok 7) :=
  ⟨((getDiskLun_notFound_and_after_attach exState4 "d" "u" "vm0" ⟨"loc", []⟩
      (by decide)).1 (by decide)).mpr (by decide),
   (getDiskLun_notFound_and_after_attach exState4 "d" "u" "vm0" ⟨"loc", []⟩
      (by decide)).2 7 "None" (by decide) (by decide)⟩

theorem wfaLoop_ok (responses : Nat → Bool) (p dname : String) :
    ∀ (fuel i : Nat), (∃ j, j < fuel ∧ responses (i + j) = true) →
      wfaLoop responses p dname i fuel = .ok p := by
  intro fuel
  induction fuel with
  | zero =>
      intro i h
      obtain ⟨j, hj, _⟩ := h
      cases hj
  | succ f ih =>
      intro i h
      obtain ⟨j, hj, hr⟩ := h
      by_cases h0 : responses i = true
      · simp only [wfaLoop, h0, if_pos]
      · cases j with
        | zero => rw [Nat.add_zero] at hr; exact absurd hr h0
        | succ j2 =>
            have hr2 : responses (i + 1 + j2) = true := by
              have he : i + 1 + j2 = i + (j2 + 1) := by omega
              rw [he]
              exact hr
            simp only [wfaLoop, h0]
            simp only [Bool.false_eq_true, if_false]
            exact ih (i + 1) ⟨j2, Nat.lt_of_succ_lt_succ hj, hr2⟩

theorem wfaLoop_timeout (responses : Nat → Bool) (p dname : String) :
    ∀ (fuel i : Nat), (∀ j, j < fuel → responses (i + j) = false) →
      wfaLoop responses p dname i fuel = .err (.timeoutExpired dname) := by
  intro fuel
  induction fuel with
  | zero => intro i _; rfl
  | succ f ih =>
      intro i h
      have h0 : responses i = false := by
        have := h 0 (Nat.succ_pos f)
        simpa using this
      simp only [wfaLoop, h0]
      simp only [Bool.false_eq_true, if_false]
      apply ih (i + 1)
      intro j hj
      have hx := h (j + 1) (Nat.succ_lt_succ hj)
      have he : i + 1 + j = i + (j + 1) := by omega
      rw [he]
      exact hx

/-- Counterexample to C5: when the one-shot scanner read finds no device
path for the LUN, WaitForAttach fails immediately with a
cannot-find-device error, not by polling until the caller-supplied
timeout and returning a timeout error naming the disk. -/
theorem waitForAttach_cex :
    WaitForAttach "disk1" "5" (some []) (fun _ => true) 10 =
      .err (.cannotFindDevice "5") ∧
    WaitForAttach "disk1" "5" (some []) (fun _ => true) 10 ≠
      .err (.timeoutExpired "disk1") := by
  decide

/-- C5 amended: WaitForAttach consults the sysfs scanner exactly once,
before the poll loop; when the scanner finds no device path it fails
immediately with a cannot-find-device error; when the scanner finds a
path, the ticker loop polls that path's existence about once per second,
returning the path at the first successful probe before the timeout, and
failing with a timeout error naming the disk when every probe before the
timeout fails. -/
theorem waitForAttach_spec (diskName dev : String) (lun : Int)
    (sysfs : Option (List SysEntry)) (responses : Nat → Bool) (ticks : Nat)
    (hdev : dev ≠ "") (hlun : atoi? dev = some lun) :
    (findDiskByLun lun sysfs = some "" →
      WaitForAttach diskName dev sysfs responses ticks =
        .err (.cannotFindDevice dev)) ∧
    (∀ p, findDiskByLun lun sysfs = some p → p ≠ "" →
      ((∃ j, j < ticks ∧ responses j = true) →
        WaitForAttach diskName dev sysfs responses ticks = .ok p) ∧
      ((∀ j, j < ticks → responses j = false) →
        WaitForAttach diskName dev sysfs responses ticks =
          .err (.timeoutExpired diskName))) := by
  constructor
  · intro hfind
    simp only [WaitForAttach, if_neg hdev, hlun, hfind]
    simp
  · intro p hfind hp
    constructor
    · intro hex
      simp only [WaitForAttach, if_neg hdev, hlun, hfind, if_neg hp]
      apply wfaLoop_ok
      simpa using hex
    · intro hall
      simp only [WaitForAttach, if_neg hdev, hlun, hfind, if_neg hp]
      apply wfaLoop_timeout
      simpa using hall

/-- Witness for the amended C5: the scanner finds /dev/sdc for LUN 5 and
the third probe succeeds, so WaitForAttach returns the device path. -/
theorem waitForAttach_spec_witness :
    WaitForAttach "disk1" "5" (some [exEntryT3]) (fun j => decide (2 ≤ j)) 5 =
      .ok "/dev/sdc" :=
  ((waitForAttach_spec "disk1" "5" 5 (some [exEntryT3])
      (fun j => decide (2 ≤ j)) 5 (by decide) (by decide)).2 "/dev/sdc"
      (by decide) (by decide)).1 ⟨3, by decide, by decide⟩

theorem fdblLoop_cons (lun : Int) (e : SysEntry) (rest : List SysEntry) :
    fdblLoop lun (e :: rest) =
      if entryMatchesVhd lun e then
        match e.blockDevs with
        | none => fdblLoop lun rest
        | some [] => none
        | some (d :: _) => some ("/dev/" ++ d)
      else fdblLoop lun rest := by
  simp only [fdblLoop, entryMatchesVhd]
  by_cases h4 : (splitOnCh ':' e.name).length < 4
  · simp [h4]
  · simp only [if_neg h4]
    cases ht : atoi? ((splitOnCh ':' e.name).getD 0 "") with
    | none => simp
    | some target =>
        by_cases htg : target > 2
        · simp only [if_pos htg]
          cases hl : atoi? ((splitOnCh ':' e.name).getD 2 "") with
          | none => simp
          | some l =>
              by_cases hlun : lun = l
              · simp only [if_pos hlun]
                cases hc : e.catOut with
                | none => simp
                | some out =>
                    cases hsig : isVhdSig out with
                    | false => simp [hsig]
                    | true => simp [hsig]
              · simp [hlun]
        · simp [htg]

theorem fdblLoop_all_false (lun : Int) : ∀ (es : List SysEntry),
    (∀ e ∈ es, entryMatchesVhd lun e = false) →
    fdblLoop lun es = some "" := by
  intro es
  induction es with
  | nil => intro _; rfl
  | cons e t ih =>
      intro h
      rw [fdblLoop_cons, h e (List.mem_cons_self e t)]
      simp only [Bool.false_eq_true, if_false]
      exact ih (fun e2 he2 => h e2 (List.mem_cons_of_mem e he2))

theorem fdblLoop_append_skip (lun : Int) : ∀ (pre l2 : List SysEntry),
    (∀ e ∈ pre, entryMatchesVhd lun e = false) →
    fdblLoop lun (pre ++ l2) = fdblLoop lun l2 := by
  intro pre
  induction pre with
  | nil => intro l2 _; rfl
  | cons e t ih =>
      intro l2 h
      rw [List.cons_append, fdblLoop_cons, h e (List.mem_cons_self e t)]
      simp only [Bool.false_eq_true, if_false]
      exact ih l2 (fun e2 he2 => h e2 (List.mem_cons_of_mem e he2))

theorem entryMatchesVhd_iff (lun : Int) (e : SysEntry)
    (hcanon : ∀ t, atoi? ((splitOnCh ':' e.name).getD 0 "") = some t →
      0 ≤ t) :
    entryMatchesVhd lun e = true ↔
      (¬ (splitOnCh ':' e.name).length < 4 ∧
       (∃ t, atoi? ((splitOnCh ':' e.name).getD 0 "") = some t ∧
          t ≠ 0 ∧ t ≠ 1 ∧ t ≠ 2) ∧
       atoi? ((splitOnCh ':' e.name).getD 2 "") = some lun ∧
       (∃ out, e.catOut = some out ∧ isVhdSig out = true)) := by
  simp only [entryMatchesVhd]
  by_cases h4 : (splitOnCh ':' e.name).length < 4
  · simp [h4]
  · simp only [if_neg h4]
    cases ht : atoi? ((splitOnCh ':' e.name).getD 0 "") with
    | none => simp
    | some target =>
        have htn : 0 ≤ target := hcanon target ht
        by_cases htg : target > 2
        · simp only [if_pos htg]
          cases hl : atoi? ((splitOnCh ':' e.name).getD 2 "") with
          | none =>
              simp only [Option.some.injEq]
              constructor
              · intro h; cases h
              · rintro ⟨-, -, hll, -⟩
                cases hll
          | some l =>
              by_cases hlun : lun = l
              · subst hlun
                cases hc : e.catOut with
                | none =>
                    simp only [Option.some.injEq]
                    constructor
                    · intro h; cases h
                    · rintro ⟨-, -, -, out2, hout2, -⟩
                      cases hout2
                | some out =>
                    simp only [if_pos rfl, Option.some.injEq]
                    constructor
                    · intro hs
                      exact ⟨h4, ⟨target, rfl, by omega, by omega, by omega⟩,
                        trivial, ⟨out, rfl, hs⟩⟩
                    · rintro ⟨-, -, -, out2, hout2, hsig2⟩
                      rw [hout2]
                      exact hsig2
              · simp only [if_neg hlun, Option.some.injEq]
                constructor
                · intro h; cases h
                · rintro ⟨-, -, hll, -⟩
                  exact absurd hll.symm hlun
        · simp only [if_neg htg, Option.some.injEq]
          constructor
          · intro h; cases h
          · rintro ⟨-, ⟨t2, ht2, h0, h1, h2⟩, -, -⟩
            subst ht2
            omega

/-- C7: findDiskByLun skips every sysfs entry whose (nonnegative) target
field is 0, 1 or 2; among the remaining entries it accepts exactly those
whose third colon-separated field equals the requested lun and whose
vendor/model output matches the MSFT / VIRTUAL DISK signature
(case-insensitive, trailing spaces tolerated); the first accepted entry
yields "/dev/" joined with the first name under its block subdirectory;
and when no entry is accepted the result is the empty string, not an
error.  In particular target=3,bus=0,lun=5,id=0 with the MSFT / VIRTUAL
DISK descriptors matches a search for lun 5 while the same entry at the
reserved target 1 does not (see the witness). -/
theorem findDiskByLun_spec (lun : Int) (entries : List SysEntry)
    (hcanon : entries.all (fun e =>
      match atoi? ((splitOnCh ':' e.name).getD 0 "") with
      | some t => decide (0 ≤ t)
      | none => true) = true) :
    ((∀ e ∈ entries, entryMatchesVhd lun e = false) →
      findDiskByLun lun (some entries) = some "") ∧
    (∀ pre e rest, entries = pre ++ e :: rest →
      (∀ e2 ∈ pre, entryMatchesVhd lun e2 = false) →
      entryMatchesVhd lun e = true →
      ∀ d ds, e.blockDevs = some (d :: ds) →
      findDiskByLun lun (some entries) = some ("/dev/" ++ d)) ∧
    (∀ e ∈ entries, (entryMatchesVhd lun e = true ↔
      (¬ (splitOnCh ':' e.name).length < 4 ∧
       (∃ t, atoi? ((splitOnCh ':' e.name).getD 0 "") = some t ∧
          t ≠ 0 ∧ t ≠ 1 ∧ t ≠ 2) ∧
       atoi? ((splitOnCh ':' e.name).getD 2 "") = some lun ∧
       (∃ out, e.catOut = some out ∧ isVhdSig out = true)))) := by
  refine ⟨?_, ?_, ?_⟩
  · intro h
    simp only [findDiskByLun]
    exact fdblLoop_all_false lun entries h
  · intro pre e rest hsplit hpre hmatch d ds hblock
    simp only [findDiskByLun, hsplit]
    rw [fdblLoop_append_skip lun pre _ hpre, fdblLoop_cons, hmatch, hblock]
    simp
  · intro e he
    apply entryMatchesVhd_iff
    intro t ht
    have hx := (List.all_eq_true.mp hcanon) e he
    rw [ht] at hx
    simpa using hx

/-- Witness for C7: the target-3 entry at lun 5 is accepted and yields
/dev/sdc while the target-1 entry is skipped. -/
theorem findDiskByLun_spec_witness :
    entryMatchesVhd 5 exEntryT1 = false ∧
    entryMatchesVhd 5 exEntryT3 = true ∧
    findDiskByLun 5 (some [exEntryT1, exEntryT3]) = some "/dev/sdc" :=
  ⟨by decide, by decide,
   (findDiskByLun_spec 5 [exEntryT1, exEntryT3] (by decide)).2.1
     [exEntryT1] exEntryT3 [] (by decide) (by decide) (by decide)
     "sdc" [] (by decide)⟩

/-- C2: when the pod directory is a live mount point and the pre-lock
GetMountRefs read returns at least one reference, TearDownAt acquires the
keyed lock on the volume name derived from the first reference, performs a
second GetMountRefs read after acquiring the lock, and only then unmounts
the pod's bind mount; moreover the run is unchanged if the tail of the
discarded pre-lock read is replaced, so only the second read is acted
upon. -/
theorem tearDownAt_relocks_and_rereads (env : TdEnv) (dir : String)
    (r : String) (rs l2 : List String)
    (h1 : env.isNotMnt1 = some false)
    (h2 : env.refs1 = some (r :: rs))
    (h3 : env.refs2 = some l2) :
    (∃ rest, (tearDownAt env dir).2 =
      [.checkMnt dir, .getRefs dir, .lockKey (pathBase r), .getRefs dir,
       .unmountOp dir] ++ rest) ∧
    (∀ rs2 : List String,
      tearDownAt { env with refs1 := some (r :: rs2) } dir =
        tearDownAt env dir) := by
  constructor
  · simp only [tearDownAt, h1, h2, h3]
    cases hu : env.unmountOk with
    | false =>
        refine ⟨[.unlockKey (pathBase r)], ?_⟩
        simp [hu]
    | true =>
        cases hm : env.isNotMnt2 with
        | none =>
            refine ⟨[.checkMnt dir, .unlockKey (pathBase r)], ?_⟩
            simp [hu, hm]
        | some b =>
            cases b with
            | false =>
                refine ⟨[.checkMnt dir, .unlockKey (pathBase r)], ?_⟩
                simp [hu, hm]
            | true =>
                refine ⟨[.checkMnt dir, .removeDir dir,
                  .unlockKey (pathBase r)], ?_⟩
                simp [hu, hm]
  · intro rs2
    simp only [tearDownAt, h1, h2, h3]

/-- Witness for C2 at a concrete environment: one pre-lock reference,
every later call succeeding. -/
theorem tearDownAt_relocks_witness :
    exTdEnv.isNotMnt1 = some false ∧
    exTdEnv.refs1 = some ["/plugins/azure-disk/mounts/disk1"] ∧
    ∃ rest, (tearDownAt exTdEnv "/poddir").2 =
      [.checkMnt "/poddir", .getRefs "/poddir",
       .lockKey (pathBase "/plugins/azure-disk/mounts/disk1"),
       .getRefs "/poddir", .unmountOp "/poddir"] ++ rest :=
  ⟨by decide, by decide,
   (tearDownAt_relocks_and_rereads exTdEnv "/poddir"
     "/plugins/azure-disk/mounts/disk1" [] ["/r1", "/r2"]
     (by decide) (by decide) (by decide)).1⟩

/-- Counterexample to C8: after MountDevice creates the directory, a
failing format-and-mount leads it to remove the directory (with no
unmount anywhere in the run) before returning the error, rather than
leaving the directory in place for the next attempt. -/
theorem mountDevice_removes_dir_cex :
    mountDevice ⟨.errNotExist, true, false⟩ false =
      (.error .mountFailed,
       [.checkMnt, .mkdirAll, .formatAndMount false, .removeDir]) ∧
    MdOp.removeDir ∈ (mountDevice ⟨.errNotExist, true, false⟩ false).2 ∧
    MdOp.unmountOp ∉ (mountDevice ⟨.errNotExist, true, false⟩ false).2 :=
  ⟨rfl, by decide, by decide⟩

/-- C8 amended: when MountDevice creates the global mount directory and
the format-and-mount call then fails, the error is returned to the caller
unretried and the created directory is removed with os.Remove before
returning; no unmount is ever performed (the code has no partial-success
rollback branch). -/
theorem mountDevice_mount_failure (env : MdEnv) (ro : Bool)
    (hc : env.check = .errNotExist) (hm : env.mkdirOk = true)
    (hf : env.fmtOk = false) :
    mountDevice env ro =
      (.error .mountFailed,
       [.checkMnt, .mkdirAll, .formatAndMount ro, .removeDir]) ∧
    MdOp.unmountOp ∉ (mountDevice env ro).2 := by
  have heq : mountDevice env ro =
      (.error .mountFailed,
       [.checkMnt, .mkdirAll, .formatAndMount ro, .removeDir]) := by
    simp [mountDevice, hc, hm, hf]
  refine ⟨heq, ?_⟩
  rw [heq]
  simp

/-- Witness for the amended C8 with the read-only option set. -/
theorem mountDevice_mount_failure_witness :
    mountDevice ⟨.errNotExist, true, false⟩ true =
      (.error .mountFailed,
       [.checkMnt, .mkdirAll, .formatAndMount true, .removeDir]) ∧
    MdOp.unmountOp ∉ (mountDevice ⟨.errNotExist, true, false⟩ true).2 :=
  mountDevice_mount_failure ⟨.errNotExist, true, false⟩ true rfl rfl rfl
